import Mathlib

/-
Verification of the LiTV content extractor (youtube_dl/extractor/litv.py).

The extractor is a stateless pipeline: match a content id out of the URL,
fetch the webpage, parse embedded program metadata and an episode list,
and either expand a playlist or resolve a single video (with fallback API
calls when the page lacked embedded data).  The host framework supplies
HTTP fetching, JSON parsing, regex search, playlist conventions and the
URL smuggling helpers; those collaborators are modelled as inputs (their
parsed responses) and as entries of an explicit effect trace.  Everything
below the collaborator boundary is translated directly from the source.
-/

namespace LiTV

/-- Header values stored in a format variant's http_headers mapping. -/
inductive HVal where
  | bool (b : Bool)
  | str (s : String)
deriving DecidableEq

/-- An http_headers mapping, modelled as an association list in insertion
order, mirroring a Python dict with string keys. -/
abbrev Headers := List (String × HVal)

/-- Python dict assignment d[k] = v: overwrite in place when the key is
present, append otherwise. -/
def dictSet (d : Headers) (k : String) (v : HVal) : Headers :=
  if d.any (fun p => p.1 == k) then
    d.map (fun p => if p.1 == k then (k, v) else p)
  else d ++ [(k, v)]

/-- Python dict lookup d.get(k): the first binding of the key, if any. -/
def dictGet (d : Headers) (k : String) : Option HVal :=
  (d.find? (fun p => p.1 == k)).map (fun p => p.2)

/-- One entry of the category list embedded in programInfo; item.get would
tolerate a missing name, but the source uses a raw item lookup. -/
structure CategoryItem where
  name : Option String
deriving DecidableEq

/-- The programInfo object parsed from the webpage (or fetched from the
getProgramInfo endpoint).  Each field is optional, `none` standing for an
absent key; raw Python key lookups on an absent key raise KeyError. -/
structure ProgramInfo where
  title : Option String
  contentId : Option String
  secondaryMark : Option String
  description : Option String
  imageFile : Option String
  category : List CategoryItem
  episode : Option Int
  assetId : Option String
  watchDevices : Option String
  contentType : Option String
deriving DecidableEq

/-- The VideoData object: either carries a manifest URL in fullpath or an
errorMessage.  `none` stands for an absent key. -/
structure VideoData where
  fullpath : Option String
  errorMessage : Option String
deriving DecidableEq

/-- One entry of the embedded itemListElement episode list. -/
structure Episode where
  url : Option String
deriving DecidableEq

/-- A playable stream variant produced by the HLS manifest parser. -/
structure FormatVariant where
  url : String
  http_headers : Option Headers
deriving DecidableEq

/-- Modelled from the spec: the smuggling helpers (encode/decode an
auxiliary options bag alongside a URL string for internal recursive calls)
live in the host utils, outside the extractor source.  The bag holds at
most the force_noplaylist flag. -/
structure SmuggleData where
  force_noplaylist : Option Bool
deriving DecidableEq

/-- A URL together with its smuggled options bag; resolve receives the
unsmuggled pair. -/
structure SmuggledUrl where
  url : String
  data : SmuggleData
deriving DecidableEq

/-- Modelled from the spec: smuggle_url pairs a URL with an options bag. -/
def smuggle_url (url : String) (d : SmuggleData) : SmuggledUrl :=
  { url := url, data := d }

/-- The final single-video output record assembled by the extractor. -/
structure ResultRecord where
  id : String
  formats : List FormatVariant
  title : String
  description : Option String
  thumbnail : Option String
  categories : List String
  episode_number : Option Int
deriving DecidableEq

/-- The two possible successful outcomes of a resolution. -/
inductive ResolveResult where
  | playlist (entries : List SmuggledUrl) (id : String) (title : String)
  | video (rec : ResultRecord)
deriving DecidableEq

/-- The terminal failures a resolution can raise.  geoRestricted,
remoteError and unexpectedResponse are the three ExtractorError raises of
the fullpath-missing branch; noMatch is the URL-pattern failure of the
component boundary; keyError models a raw Python dict lookup on an absent
key escaping as an exception. -/
inductive ExtractError where
  | noMatch
  | geoRestricted (msg : String)
  | remoteError (msg : String)
  | unexpectedResponse (msg : String)
  | keyError (key : String)
deriving DecidableEq

/-- Observable side effects of one resolution, in order of occurrence:
the webpage fetch, user-facing screen lines, the two conditional JSON API
calls (the getMainUrlNoAuth payload fields are recorded verbatim), and
the manifest fetch. -/
inductive Effect where
  | fetchWebpage (url : String) (video_id : String)
  | toScreen (msg : String)
  | callGetProgramInfo (contentId : String)
  | callGetMainUrl (assetId : String) (watchDevices : String) (contentType : String)
  | fetchManifest (url : String)
deriving DecidableEq

/-- Responses of the external collaborators, fixed for one resolution:
the user preference, the two webpage parses, the two JSON endpoints and
the manifest parser.  videoData_page is `none` when the uiHlsUrl parse
yields no data (regex absent, so the default object, or falsy JSON). -/
structure Collaborators where
  noplaylist_param : Bool
  programInfo_page : ProgramInfo
  episodes_page : List Episode
  programInfo_api : ProgramInfo
  videoData_page : Option VideoData
  videoData_api : VideoData
  manifest : String → List FormatVariant

/-- Python truthiness of an optional string: present and non-empty. -/
def truthyOptStr : Option String → Bool
  | some s => s != ""
  | none => false

/-- Modelled from the spec: "episode number (parsed as integer,
nullable)"; utils.int_or_none lives outside the extractor source.  The
field is modelled already parsed, so this is the identity on the
optional integer. -/
def int_or_none (v : Option Int) : Option Int := v

/- ## The URL pattern

_VALID_URL is the anchored regular expression
https?://(?:www\.)?litv\.tv/(?:vod|promo)/[^\/]+/(?:content\.do)?\?.*?\b(?:content_)?id=(?P<id>[^&]+)
implemented below character by character.  Every optional or alternated
piece of the pattern is deterministic on its input (no two branches can
both start a successful match), so the backtracking search reduces to the
sequential attempts coded here; the lazy .*? and the word boundary are
implemented by the left-to-right scan scanForId. -/

/-- Word characters for the boundary assertion: alphanumerics and the
underscore (URLs here are ASCII). -/
def isWordChar (c : Char) : Bool :=
  c.isAlphanum || c == '_'

/-- Consume an exact literal, returning the rest of the input. -/
def eatLit : List Char → List Char → Option (List Char)
  | [], cs => some cs
  | _ :: _, [] => none
  | p :: ps, c :: cs => if c == p then eatLit ps cs else none

/-- Consume an optional literal (the regex pieces s?, www\. and the like,
where taking the literal when present is the only branch that can go on
to succeed). -/
def eatOpt (lit cs : List Char) : List Char :=
  match eatLit lit cs with
  | some r => r
  | none => cs

/-- The capture group [^&]+: the longest non-empty run of characters
before the next ampersand. -/
def takeCapture (cs : List Char) : Option String :=
  let cap := cs.takeWhile (fun c => c != '&')
  if cap.isEmpty then none else some (String.mk cap)

/-- Match (?:content_)?id= followed by the capture at the current
position: the optional group is tried first, as the regex engine does. -/
def matchIdAssign (cs : List Char) : Option String :=
  match eatLit "content_id=".toList cs with
  | some rest => takeCapture rest
  | none =>
    match eatLit "id=".toList cs with
    | some rest => takeCapture rest
    | none => none

/-- The word-boundary assertion between the previously consumed character
and the head of the remaining input. -/
def atBoundary (prev : Option Char) (cs : List Char) : Bool :=
  let pw := match prev with | some c => isWordChar c | none => false
  let nw := match cs with | c :: _ => isWordChar c | [] => false
  pw != nw

/-- The lazy .*?\b(?:content_)?id=([^&]+) tail: try the id assignment at
the current position first, else let .*? consume one more character
(which may not be a newline) and continue. -/
def scanForId (prev : Option Char) : List Char → Option String
  | [] => none
  | c :: rest =>
    match (if atBoundary prev (c :: rest) then matchIdAssign (c :: rest) else none) with
    | some i => some i
    | none => if c == '\n' then none else scanForId (some c) rest

/-- re.match of _VALID_URL against the URL, returning the id group:
the Python _match_id of the host applied to this extractor's pattern. -/
def matchId (url : String) : Option String :=
  (eatLit "http".toList url.toList).bind fun cs1 =>
  let cs2 := eatOpt ['s'] cs1
  (eatLit "://".toList cs2).bind fun cs3 =>
  let cs4 := eatOpt "www.".toList cs3
  (eatLit "litv.tv/".toList cs4).bind fun cs5 =>
  (match eatLit "vod".toList cs5 with
   | some r => some r
   | none => eatLit "promo".toList cs5).bind fun cs6 =>
  (eatLit ['/'] cs6).bind fun cs7 =>
  (let seg := cs7.takeWhile (fun c => c != '/')
   if seg.isEmpty then none
   else eatLit ['/'] (cs7.drop seg.length)).bind fun cs8 =>
  (match eatLit "content.do?".toList cs8 with
   | some r => some r
   | none => eatLit ['?'] cs8).bind fun cs9 =>
  scanForId (some '?') cs9

/- ## The pipeline -/

/-- noplaylist as computed at the top of _real_extract: the smuggled
force_noplaylist when supplied, else the downloader's user preference
(absent preference being falsy). -/
def effectiveNoplaylist (noplaylist_param : Bool) (data : SmuggleData) : Bool :=
  match data.force_noplaylist with
  | some b => b
  | none => noplaylist_param

/-- The list comprehension of _extract_playlist: smuggle force_noplaylist
= True alongside each episode's URL; a raw lookup of a missing url key
raises. -/
def episodeEntries : List Episode → Except ExtractError (List SmuggledUrl)
  | [] => .ok []
  | e :: rest =>
    match e.url with
    | none => .error (.keyError "url")
    | some u =>
      match episodeEntries rest with
      | .error err => .error err
      | .ok tail => .ok (smuggle_url u { force_noplaylist := some true } :: tail)

/-- _extract_playlist: raw lookups of title and contentId, an optional
screen notice, then the playlist result keyed by contentId and title. -/
def extract_playlist (episodes_list : List Episode) (video_id : String)
    (program_info : ProgramInfo) (prompt : Bool) :
    Except ExtractError ResolveResult × List Effect :=
  match program_info.title with
  | none => (.error (.keyError "title"), [])
  | some episode_title =>
    match program_info.contentId with
    | none => (.error (.keyError "contentId"), [])
    | some content_id =>
      let effs := if prompt then
          [Effect.toScreen ("Downloading playlist " ++ content_id ++
            " - add --no-playlist to just download video " ++ video_id)]
        else []
      match episodeEntries episodes_list with
      | .error err => (.error err, effs)
      | .ok all_episodes => (.ok (.playlist all_episodes content_id episode_title), effs)

/-- The getProgramInfo fallback: when the page-parsed programInfo lacks an
assetId key, refetch it by content id from the ajax endpoint. -/
def programInfoStep (env : Collaborators) (video_id : String) :
    ProgramInfo × List Effect :=
  if env.programInfo_page.assetId.isNone then
    (env.programInfo_api, [Effect.callGetProgramInfo video_id])
  else
    (env.programInfo_page, [])

/-- The video-data selection: the uiHlsUrl page parse when it yielded
data, else a POST to getMainUrlNoAuth whose payload is exactly the
assetId, watchDevices and contentType raw lookups on program_info. -/
def videoDataStep (env : Collaborators) (program_info : ProgramInfo) :
    Except ExtractError (VideoData × List Effect) :=
  match env.videoData_page with
  | some vd => .ok (vd, [])
  | none =>
    match program_info.assetId with
    | none => .error (.keyError "assetId")
    | some a =>
      match program_info.watchDevices with
      | none => .error (.keyError "watchDevices")
      | some w =>
        match program_info.contentType with
        | none => .error (.keyError "contentType")
        | some c => .ok (env.videoData_api, [Effect.callGetMainUrl a w c])

/-- The failure classification of the fullpath-missing branch: the known
geo code raises the geo-restriction error naming Taiwan, any other truthy
errorMessage raises the expected remote error quoting it after the
IE_NAME, anything else the unexpected-result error. -/
def classifyFailure (video_data : VideoData) : ExtractError :=
  match video_data.errorMessage with
  | some m =>
    if m == "vod.error.outsideregionerror" then
      .geoRestricted "This video is available in Taiwan only"
    else if m != "" then
      .remoteError ("LiTV said: " ++ m)
    else
      .unexpectedResponse "Unexpected result from LiTV"
  | none => .unexpectedResponse "Unexpected result from LiTV"

/-- The per-format header override: setdefault http_headers to an empty
dict, then set the no-compression key to True. -/
def setNoCompression (f : FormatVariant) : FormatVariant :=
  { f with
    http_headers :=
      some (dictSet (f.http_headers.getD []) "Youtubedl-no-compression" (HVal.bool true)) }

/-- The category-name comprehension: a raw name lookup on each item of
the (possibly absent, hence defaulted) category list. -/
def categoryNames : List CategoryItem → Except ExtractError (List String)
  | [] => .ok []
  | item :: rest =>
    match item.name with
    | none => .error (.keyError "name")
    | some n =>
      match categoryNames rest with
      | .error err => .error err
      | .ok tail => .ok (n :: tail)

/-- The tail of the single-video path once a VideoData is in hand: if its
fullpath is not truthy, raise the classified failure; else parse the HLS
manifest at fullpath, force the no-compression header on every variant,
and assemble the result record (title is a raw lookup plus the optional
secondaryMark suffix). -/
def afterVideoData (env : Collaborators) (video_id : String)
    (program_info : ProgramInfo) (video_data : VideoData) :
    Except ExtractError ResolveResult × List Effect :=
  if truthyOptStr video_data.fullpath then
    let fullpath := video_data.fullpath.getD ""
    let formats := (env.manifest fullpath).map setNoCompression
    match program_info.title with
    | none => (.error (.keyError "title"), [Effect.fetchManifest fullpath])
    | some t =>
      match categoryNames program_info.category with
      | .error err => (.error err, [Effect.fetchManifest fullpath])
      | .ok categories =>
        (.ok (.video {
          id := video_id
          formats := formats
          title := t ++ program_info.secondaryMark.getD ""
          description := program_info.description
          thumbnail := program_info.imageFile
          categories := categories
          episode_number := int_or_none program_info.episode }),
         [Effect.fetchManifest fullpath])
  else
    (.error (classifyFailure video_data), [])

/-- The single-video path: programInfo fallback, video-data selection,
then the common tail. -/
def single_video (env : Collaborators) (video_id : String) :
    Except ExtractError ResolveResult × List Effect :=
  let pis := programInfoStep env video_id
  match videoDataStep env pis.1 with
  | .error e => (.error e, pis.2)
  | .ok vde =>
    let av := afterVideoData env video_id pis.1 vde.1
    (av.1, pis.2 ++ vde.2 ++ av.2)

/-- _real_extract: unsmuggle (the input arrives as the pair), match the
id, compute playlist intent, fetch the page, and branch between the
playlist expansion and the single-video path, printing the opt-out
notice when a non-empty episode list is skipped interactively. -/
def real_extract (env : Collaborators) (input : SmuggledUrl) :
    Except ExtractError ResolveResult × List Effect :=
  match matchId input.url with
  | none => (.error .noMatch, [])
  | some video_id =>
    let noplaylist := effectiveNoplaylist env.noplaylist_param input.data
    let noplaylist_prompt := input.data.force_noplaylist.isNone
    if !env.episodes_page.isEmpty && !noplaylist then
      let pr := extract_playlist env.episodes_page video_id env.programInfo_page noplaylist_prompt
      (pr.1, Effect.fetchWebpage input.url video_id :: pr.2)
    else
      let screenEffs :=
        if !env.episodes_page.isEmpty && noplaylist_prompt then
          [Effect.toScreen ("Downloading just video " ++ video_id ++ " because of --no-playlist")]
        else []
      let sv := single_video env video_id
      (sv.1, Effect.fetchWebpage input.url video_id :: (screenEffs ++ sv.2))

/-- Count of user-facing screen lines in an effect trace. -/
def countToScreen (effs : List Effect) : Nat :=
  effs.countP (fun e => match e with | .toScreen _ => true | _ => false)

/- ## Sample collaborator environments used to instantiate the theorems -/

/-- A programInfo with no keys at all (the tolerated parse default). -/
def emptyProgramInfo : ProgramInfo :=
  { title := none, contentId := none, secondaryMark := none, description := none,
    imageFile := none, category := [], episode := none, assetId := none,
    watchDevices := none, contentType := none }

/-- A fully populated programInfo. -/
def samplePI : ProgramInfo :=
  { title := some "T", contentId := some "C", secondaryMark := none, description := none,
    imageFile := none, category := [], episode := some 1, assetId := some "A",
    watchDevices := some "W", contentType := some "CT" }

/-- A baseline environment: no episode list, embedded video data with a
manifest URL, a one-variant manifest. -/
def baseEnv : Collaborators :=
  { noplaylist_param := false, programInfo_page := samplePI, episodes_page := [],
    programInfo_api := emptyProgramInfo,
    videoData_page := some { fullpath := some "http://m/x.m3u8", errorMessage := none },
    videoData_api := { fullpath := none, errorMessage := none },
    manifest := fun u => [{ url := u, http_headers := none }] }

/-- A matching input URL carrying no smuggled data. -/
def inputStd : SmuggledUrl :=
  { url := "http://litv.tv/vod/a/?id=V1", data := { force_noplaylist := none } }

/-- The single format variant baseEnv's resolution produces. -/
def baseFormat : FormatVariant :=
  { url := "http://m/x.m3u8",
    http_headers := some [("Youtubedl-no-compression", HVal.bool true)] }

/-- The record baseEnv resolves inputStd to. -/
def baseRec : ResultRecord :=
  { id := "V1", formats := [baseFormat], title := "T", description := none,
    thumbnail := none, categories := [], episode_number := some 1 }

/-- A matching input URL carrying the recursion flag. -/
def inputForced : SmuggledUrl :=
  { url := "http://litv.tv/vod/a/?id=V1", data := { force_noplaylist := some true } }

/-- An input whose URL the pattern rejects. -/
def inputBad : SmuggledUrl :=
  { url := "x", data := { force_noplaylist := none } }

/-- Environment whose video data reports a remote error message. -/
def envC1 : Collaborators :=
  { baseEnv with videoData_page := some { fullpath := none, errorMessage := some "boom" } }

/-- Environment with a two-episode list and playlist metadata. -/
def envC2 : Collaborators :=
  { baseEnv with
    programInfo_page := { samplePI with title := some "Show", contentId := some "CID" },
    episodes_page := [{ url := some "http://e1" }, { url := some "http://e2" }] }

/-- Environment with an episode list, resolved with the recursion flag. -/
def envC3 : Collaborators :=
  { baseEnv with episodes_page := [{ url := some "http://e1" }] }

/-- Environment whose uiHlsUrl parse is empty, forcing the getMainUrlNoAuth
call; its response carries the manifest URL. -/
def envC5 : Collaborators :=
  { baseEnv with
    videoData_page := none,
    videoData_api := { fullpath := some "http://m/y.m3u8", errorMessage := none } }

/-- Environment whose page programInfo lacks assetId, forcing the
getProgramInfo refetch. -/
def envC6 : Collaborators :=
  { baseEnv with programInfo_page := emptyProgramInfo, programInfo_api := samplePI }

/-- Environment with an episode list but a programInfo missing title. -/
def envC10 : Collaborators :=
  { baseEnv with
    programInfo_page := emptyProgramInfo,
    episodes_page := [{ url := some "http://e1" }] }

/- ## Helper lemmas -/

theorem episodeEntries_ok (l : List Episode) (h : ∀ e ∈ l, e.url ≠ none) :
    episodeEntries l =
      .ok (l.map (fun e => smuggle_url (e.url.getD "") { force_noplaylist := some true })) := by
  induction l with
  | nil => rfl
  | cons e rest ih =>
    match hu : e.url with
    | none => exact absurd hu (h e (by simp))
    | some u =>
      simp only [episodeEntries, hu, ih (fun x hx => h x (by simp [hx])), List.map_cons]
      rfl

theorem extract_playlist_ok (l : List Episode) (vid : String) (pi : ProgramInfo)
    (p : Bool) (t cid : String) (ht : pi.title = some t) (hc : pi.contentId = some cid)
    (hurl : ∀ e ∈ l, e.url ≠ none) :
    extract_playlist l vid pi p =
      (.ok (.playlist (l.map fun e => smuggle_url (e.url.getD "") { force_noplaylist := some true }) cid t),
       if p then
         [Effect.toScreen ("Downloading playlist " ++ cid ++
           " - add --no-playlist to just download video " ++ vid)]
       else []) := by
  simp [extract_playlist, ht, hc, episodeEntries_ok l hurl]

theorem extract_playlist_ok_shape (l : List Episode) (vid : String) (pi : ProgramInfo)
    (p : Bool) (r : ResolveResult) (h : (extract_playlist l vid pi p).1 = .ok r) :
    ∃ es i t, r = .playlist es i t := by
  unfold extract_playlist at h
  cases ht : pi.title with
  | none => simp [ht] at h
  | some t =>
    cases hc : pi.contentId with
    | none => simp [ht, hc] at h
    | some cid =>
      cases he : episodeEntries l with
      | error err => simp [ht, hc, he] at h
      | ok es =>
        simp [ht, hc, he] at h
        exact ⟨es, cid, t, h.symm⟩

theorem real_extract_playlist_branch (env : Collaborators) (input : SmuggledUrl)
    (video_id : String) (hmatch : matchId input.url = some video_id)
    (hne : env.episodes_page.isEmpty = false)
    (hnp : effectiveNoplaylist env.noplaylist_param input.data = false) :
    real_extract env input =
      ((extract_playlist env.episodes_page video_id env.programInfo_page
          input.data.force_noplaylist.isNone).1,
       Effect.fetchWebpage input.url video_id ::
         (extract_playlist env.episodes_page video_id env.programInfo_page
           input.data.force_noplaylist.isNone).2) := by
  simp [real_extract, hmatch, hne, hnp]

theorem real_extract_single (env : Collaborators) (input : SmuggledUrl)
    (video_id : String) (hmatch : matchId input.url = some video_id)
    (hsingle : env.episodes_page.isEmpty = true ∨
      effectiveNoplaylist env.noplaylist_param input.data = true) :
    real_extract env input =
      ((single_video env video_id).1,
       Effect.fetchWebpage input.url video_id ::
         ((if !env.episodes_page.isEmpty && input.data.force_noplaylist.isNone then
             [Effect.toScreen ("Downloading just video " ++ video_id ++
               " because of --no-playlist")]
           else []) ++ (single_video env video_id).2)) := by
  rcases hsingle with h | h <;> simp [real_extract, hmatch, h]

theorem afterVideoData_ok_shape (env : Collaborators) (vid : String)
    (pi : ProgramInfo) (vd : VideoData) (r : ResolveResult)
    (h : (afterVideoData env vid pi vd).1 = .ok r) :
    ∃ rec, r = .video rec ∧ rec.id = vid ∧
      rec.formats = (env.manifest (vd.fullpath.getD "")).map setNoCompression := by
  unfold afterVideoData at h
  by_cases hfp : truthyOptStr vd.fullpath
  · simp only [hfp, if_true] at h
    cases ht : pi.title with
    | none => simp [ht] at h
    | some t =>
      cases hcat : categoryNames pi.category with
      | error err => simp [ht, hcat] at h
      | ok cats =>
        simp only [ht, hcat, Except.ok.injEq] at h
        subst h
        exact ⟨_, rfl, rfl, rfl⟩
  · simp [hfp] at h

theorem single_video_ok_shape (env : Collaborators) (vid : String) (r : ResolveResult)
    (h : (single_video env vid).1 = .ok r) :
    ∃ rec, r = .video rec ∧ rec.id = vid ∧
      ∃ fp, rec.formats = (env.manifest fp).map setNoCompression := by
  unfold single_video at h
  cases hvd : videoDataStep env (programInfoStep env vid).1 with
  | error e => simp [hvd] at h
  | ok vde =>
    simp only [hvd] at h
    obtain ⟨rec, hr, hid, hf⟩ := afterVideoData_ok_shape env vid _ vde.1 r h
    exact ⟨rec, hr, hid, _, hf⟩

theorem find_map_overwrite (k : String) (v : HVal) (d : Headers)
    (h : d.any (fun p => p.1 == k) = true) :
    (d.map (fun p => if p.1 == k then (k, v) else p)).find? (fun p => p.1 == k) =
      some (k, v) := by
  induction d with
  | nil => simp at h
  | cons hd tl ih =>
    by_cases hk : (hd.1 == k) = true
    · rw [List.map_cons, if_pos hk]
      exact List.find?_cons_of_pos _ (by simp)
    · rw [List.map_cons, if_neg hk]
      have hstep := List.find?_cons_of_neg (p := fun q => q.1 == k) (a := hd)
        (List.map (fun q => if q.1 == k then (k, v) else q) tl) hk
      rw [hstep]
      apply ih
      simpa [hk] using h

theorem dictGet_dictSet (d : Headers) (k : String) (v : HVal) :
    dictGet (dictSet d k v) k = some v := by
  unfold dictGet dictSet
  by_cases h : d.any (fun p => p.1 == k) = true
  · rw [if_pos h, find_map_overwrite k v d h]
    rfl
  · rw [if_neg h]
    have hnone : d.find? (fun p => p.1 == k) = none := by
      rw [List.find?_eq_none]
      intro x hx
      by_contra hpx
      exact h (List.any_eq_true.mpr ⟨x, hx, by simpa using hpx⟩)
    rw [List.find?_append, hnone]
    simp [List.find?]

/- ## The claims -/

/-- C8: resolve is deterministic and idempotent: with the same URL and the
same collaborator responses, two calls return equal results, and two
successful single-video calls yield identical id, title and
episode_number. -/
theorem claim_C8_idempotent (env : Collaborators) (input : SmuggledUrl) :
    real_extract env input = real_extract env input ∧
    ∀ r1 r2, (real_extract env input).1 = .ok (.video r1) →
      (real_extract env input).1 = .ok (.video r2) →
      r1.id = r2.id ∧ r1.title = r2.title ∧ r1.episode_number = r2.episode_number := by
  refine ⟨rfl, fun r1 r2 h1 h2 => ?_⟩
  rw [h1] at h2
  have : r1 = r2 := by simpa using h2
  subst this
  exact ⟨rfl, rfl, rfl⟩

theorem claim_C8_witness :
    baseRec.id = baseRec.id ∧ baseRec.title = baseRec.title ∧
      baseRec.episode_number = baseRec.episode_number :=
  (claim_C8_idempotent baseEnv inputStd).2 baseRec baseRec (by rfl) (by rfl)

/-- C2: with a non-empty embedded episode list and playlist mode active,
resolve returns a PlaylistResult with exactly one entry per episode, in
the original order, each entry the episode URL with force_noplaylist true
smuggled alongside, keyed by the program's contentId and title. -/
theorem claim_C2_playlist_expansion (env : Collaborators) (input : SmuggledUrl)
    (video_id t cid : String) (hmatch : matchId input.url = some video_id)
    (hne : env.episodes_page.isEmpty = false)
    (hnp : effectiveNoplaylist env.noplaylist_param input.data = false)
    (ht : env.programInfo_page.title = some t)
    (hc : env.programInfo_page.contentId = some cid)
    (hurl : ∀ e ∈ env.episodes_page, e.url ≠ none) :
    (real_extract env input).1 =
      .ok (.playlist
        (env.episodes_page.map fun e =>
          smuggle_url (e.url.getD "") { force_noplaylist := some true })
        cid t) ∧
    (env.episodes_page.map fun e =>
      smuggle_url (e.url.getD "") { force_noplaylist := some true }).length =
        env.episodes_page.length := by
  refine ⟨?_, by simp⟩
  rw [real_extract_playlist_branch env input video_id hmatch hne hnp]
  rw [extract_playlist_ok env.episodes_page video_id env.programInfo_page
    input.data.force_noplaylist.isNone t cid ht hc hurl]

theorem claim_C2_witness :
    (real_extract envC2 inputStd).1 =
      .ok (.playlist [smuggle_url "http://e1" { force_noplaylist := some true },
        smuggle_url "http://e2" { force_noplaylist := some true }] "CID" "Show") :=
  (claim_C2_playlist_expansion envC2 inputStd "V1" "Show" "CID" (by rfl) rfl rfl rfl rfl
    (by decide)).1

/-- C3: with a non-empty episode list but playlist mode disabled, via the
user preference or the smuggled recursion flag, resolve takes the
single-video path and any successful outcome is a single ResultRecord,
never a PlaylistResult. -/
theorem claim_C3_noplaylist_single (env : Collaborators) (input : SmuggledUrl)
    (video_id : String) (hmatch : matchId input.url = some video_id)
    (hne : env.episodes_page.isEmpty = false)
    (hnp : effectiveNoplaylist env.noplaylist_param input.data = true) :
    (real_extract env input).1 = (single_video env video_id).1 ∧
    ∀ r, (real_extract env input).1 = .ok r → ∃ rec, r = .video rec := by
  have heq := real_extract_single env input video_id hmatch (Or.inr hnp)
  constructor
  · rw [heq]
  · intro r hr
    rw [heq] at hr
    obtain ⟨rec, hrec, _, _⟩ := single_video_ok_shape env video_id r hr
    exact ⟨rec, hrec⟩

theorem claim_C3_witness :
    (real_extract envC3 inputForced).1 = (single_video envC3 "V1").1 :=
  (claim_C3_noplaylist_single envC3 inputForced "V1" (by rfl) rfl rfl).1

/-- C10: on the playlist path, a programInfo lacking title or contentId
escapes as a raw key-lookup failure, which is none of the error kinds of
the spec's taxonomy. -/
theorem claim_C10_missing_keys (env : Collaborators) (input : SmuggledUrl)
    (video_id : String) (hmatch : matchId input.url = some video_id)
    (hne : env.episodes_page.isEmpty = false)
    (hnp : effectiveNoplaylist env.noplaylist_param input.data = false) :
    (env.programInfo_page.title = none →
      (real_extract env input).1 = .error (.keyError "title")) ∧
    (∀ t, env.programInfo_page.title = some t → env.programInfo_page.contentId = none →
      (real_extract env input).1 = .error (.keyError "contentId")) ∧
    (∀ k m, ExtractError.keyError k ≠ .geoRestricted m ∧
      ExtractError.keyError k ≠ .remoteError m ∧
      ExtractError.keyError k ≠ .unexpectedResponse m ∧
      ExtractError.keyError k ≠ .noMatch) := by
  have heq := real_extract_playlist_branch env input video_id hmatch hne hnp
  refine ⟨fun ht => ?_, fun t ht hc => ?_, fun k m => by simp⟩
  · rw [heq]
    simp [extract_playlist, ht]
  · rw [heq]
    simp [extract_playlist, ht, hc]

theorem claim_C10_witness :
    (real_extract envC10 inputStd).1 = .error (.keyError "title") :=
  (claim_C10_missing_keys envC10 inputStd "V1" (by rfl) rfl rfl).1 rfl

theorem countToScreen_append (a b : List Effect) :
    countToScreen (a ++ b) = countToScreen a + countToScreen b :=
  List.countP_append _ a b

theorem countToScreen_cons_fetch (u v : String) (l : List Effect) :
    countToScreen (Effect.fetchWebpage u v :: l) = countToScreen l := by
  simp [countToScreen, List.countP_cons]

theorem countToScreen_programInfoStep (env : Collaborators) (vid : String) :
    countToScreen (programInfoStep env vid).2 = 0 := by
  unfold programInfoStep
  split <;> rfl

theorem countToScreen_videoDataStep (env : Collaborators) (pi : ProgramInfo)
    (vde : VideoData × List Effect) (h : videoDataStep env pi = .ok vde) :
    countToScreen vde.2 = 0 := by
  unfold videoDataStep at h
  cases hp : env.videoData_page with
  | some v =>
    simp only [hp] at h
    obtain rfl := Except.ok.inj h
    rfl
  | none =>
    simp only [hp] at h
    cases ha : pi.assetId with
    | none => simp [ha] at h
    | some a =>
      simp only [ha] at h
      cases hw : pi.watchDevices with
      | none => simp [hw] at h
      | some w =>
        simp only [hw] at h
        cases hc : pi.contentType with
        | none => simp [hc] at h
        | some c =>
          simp only [hc] at h
          obtain rfl := Except.ok.inj h
          rfl

theorem countToScreen_afterVideoData (env : Collaborators) (vid : String)
    (pi : ProgramInfo) (vd : VideoData) :
    countToScreen (afterVideoData env vid pi vd).2 = 0 := by
  unfold afterVideoData
  split
  · split
    · rfl
    · split <;> rfl
  · rfl

theorem countToScreen_single_video (env : Collaborators) (vid : String) :
    countToScreen (single_video env vid).2 = 0 := by
  unfold single_video
  cases h : videoDataStep env (programInfoStep env vid).1 with
  | error e =>
    simp only [h]
    exact countToScreen_programInfoStep env vid
  | ok vde =>
    simp only [h]
    rw [countToScreen_append, countToScreen_append,
      countToScreen_programInfoStep env vid,
      countToScreen_videoDataStep env _ vde h,
      countToScreen_afterVideoData]

theorem countToScreen_extract_playlist_le (l : List Episode) (vid : String)
    (pi : ProgramInfo) (p : Bool) :
    countToScreen (extract_playlist l vid pi p).2 ≤ 1 := by
  unfold extract_playlist
  split
  · simp [countToScreen]
  · split
    · simp [countToScreen]
    · cases he : episodeEntries l <;> cases p <;>
        simp [he, countToScreen, List.countP_cons]

theorem countToScreen_extract_playlist_off (l : List Episode) (vid : String)
    (pi : ProgramInfo) :
    countToScreen (extract_playlist l vid pi false).2 = 0 := by
  unfold extract_playlist
  split
  · rfl
  · split
    · rfl
    · cases he : episodeEntries l <;> simp [he, countToScreen]

/-- C9: every resolution prints at most one user-facing informational
line, the two notices being mutually exclusive, and prints none at all
when the call is an internal recursive episode resolution (smuggled
force_noplaylist present). -/
theorem claim_C9_at_most_one_notice (env : Collaborators) (input : SmuggledUrl) :
    countToScreen (real_extract env input).2 ≤ 1 ∧
    (input.data.force_noplaylist ≠ none →
      countToScreen (real_extract env input).2 = 0) := by
  cases hm : matchId input.url with
  | none =>
    have heq : real_extract env input = (.error .noMatch, []) := by
      simp [real_extract, hm]
    rw [heq]
    exact ⟨by simp [countToScreen], fun _ => rfl⟩
  | some vid =>
    by_cases hcond : (!env.episodes_page.isEmpty &&
        !effectiveNoplaylist env.noplaylist_param input.data) = true
    · rw [Bool.and_eq_true, Bool.not_eq_true', Bool.not_eq_true'] at hcond
      have heq := real_extract_playlist_branch env input vid hm hcond.1 hcond.2
      rw [heq, countToScreen_cons_fetch]
      refine ⟨countToScreen_extract_playlist_le _ _ _ _, fun hforce => ?_⟩
      have hiso : input.data.force_noplaylist.isNone = false := by
        cases hx : input.data.force_noplaylist with
        | none => exact absurd hx hforce
        | some b => rfl
      rw [hiso]
      exact countToScreen_extract_playlist_off _ _ _
    · have hsingle : env.episodes_page.isEmpty = true ∨
          effectiveNoplaylist env.noplaylist_param input.data = true := by
        cases hA : env.episodes_page.isEmpty with
        | true => exact Or.inl rfl
        | false =>
          cases hB : effectiveNoplaylist env.noplaylist_param input.data with
          | true => exact Or.inr rfl
          | false => exact absurd (by rw [hA, hB]; rfl) hcond
      have heq := real_extract_single env input vid hm hsingle
      rw [heq, countToScreen_cons_fetch, countToScreen_append,
        countToScreen_single_video]
      constructor
      · by_cases hp : (!env.episodes_page.isEmpty &&
            input.data.force_noplaylist.isNone) = true
        · simp [hp, countToScreen, List.countP_cons]
        · have hp' : (!env.episodes_page.isEmpty &&
              input.data.force_noplaylist.isNone) = false := Bool.eq_false_iff.mpr hp
          simp [hp', countToScreen]
      · intro hforce
        have hiso : input.data.force_noplaylist.isNone = false := by
          cases hx : input.data.force_noplaylist with
          | none => exact absurd hx hforce
          | some b => rfl
        simp [hiso, countToScreen]

theorem claim_C9_witness :
    countToScreen (real_extract envC3 inputForced).2 = 0 :=
  (claim_C9_at_most_one_notice envC3 inputForced).2 (by simp [inputForced])

/-- C1: when the selected VideoData lacks a truthy fullpath, resolve
fails with exactly the classification of that branch: the known geo code
gives GeoRestricted naming Taiwan, any other non-empty errorMessage gives
RemoteError quoting the message verbatim, and anything else gives
UnexpectedResponse; no other outcome is possible there. -/
theorem claim_C1_failure_classification (env : Collaborators) (input : SmuggledUrl)
    (video_id : String) (vde : VideoData × List Effect)
    (hmatch : matchId input.url = some video_id)
    (hsingle : env.episodes_page.isEmpty = true ∨
      effectiveNoplaylist env.noplaylist_param input.data = true)
    (hvd : videoDataStep env (programInfoStep env video_id).1 = .ok vde)
    (hfp : truthyOptStr vde.1.fullpath = false) :
    (real_extract env input).1 = .error (classifyFailure vde.1) ∧
    (vde.1.errorMessage = some "vod.error.outsideregionerror" →
      classifyFailure vde.1 = .geoRestricted "This video is available in Taiwan only" ∧
      "This video is available in Taiwan only" =
        "This video is available in " ++ "Taiwan" ++ " only") ∧
    (∀ m, vde.1.errorMessage = some m → m ≠ "vod.error.outsideregionerror" → m ≠ "" →
      classifyFailure vde.1 = .remoteError ("LiTV said: " ++ m) ∧
      ∃ pre, "LiTV said: " ++ m = pre ++ m) ∧
    ((vde.1.errorMessage = none ∨ vde.1.errorMessage = some "") →
      classifyFailure vde.1 = .unexpectedResponse "Unexpected result from LiTV") := by
  refine ⟨?_, ?_, ?_, ?_⟩
  · have heq := real_extract_single env input video_id hmatch hsingle
    rw [heq]
    simp only [single_video, hvd]
    unfold afterVideoData
    rw [hfp]
    simp
  · intro h
    refine ⟨by simp [classifyFailure, h], by rfl⟩
  · intro m hm hno hnem
    have h1 : (m == "vod.error.outsideregionerror") = false := by
      simpa using hno
    have h2 : (m != "") = true := by simpa using hnem
    exact ⟨by simp [classifyFailure, hm, h1, h2], "LiTV said: ", rfl⟩
  · rintro (h | h) <;> simp [classifyFailure, h]

theorem claim_C1_witness :
    (real_extract envC1 inputStd).1 = .error (.remoteError "LiTV said: boom") := by
  have h := (claim_C1_failure_classification envC1 inputStd "V1"
    ({ fullpath := none, errorMessage := some "boom" }, []) (by rfl) (Or.inl rfl)
    rfl rfl).1
  exact h

/-- C4: every FormatVariant in a successful single-video ResultRecord
carries the Youtubedl-no-compression header set to true in its
http_headers. -/
theorem claim_C4_no_compression (env : Collaborators) (input : SmuggledUrl)
    (rec : ResultRecord) (f : FormatVariant)
    (h : (real_extract env input).1 = .ok (.video rec)) (hf : f ∈ rec.formats) :
    ∃ hs, f.http_headers = some hs ∧
      dictGet hs "Youtubedl-no-compression" = some (HVal.bool true) := by
  cases hm : matchId input.url with
  | none =>
    have heq : real_extract env input = (.error .noMatch, []) := by
      simp [real_extract, hm]
    rw [heq] at h
    simp at h
  | some vid =>
    by_cases hcond : (!env.episodes_page.isEmpty &&
        !effectiveNoplaylist env.noplaylist_param input.data) = true
    · rw [Bool.and_eq_true, Bool.not_eq_true', Bool.not_eq_true'] at hcond
      have heq := real_extract_playlist_branch env input vid hm hcond.1 hcond.2
      rw [heq] at h
      obtain ⟨es, i, t, hplay⟩ := extract_playlist_ok_shape _ _ _ _ _ h
      simp at hplay
    · have hsingle : env.episodes_page.isEmpty = true ∨
          effectiveNoplaylist env.noplaylist_param input.data = true := by
        cases hA : env.episodes_page.isEmpty with
        | true => exact Or.inl rfl
        | false =>
          cases hB : effectiveNoplaylist env.noplaylist_param input.data with
          | true => exact Or.inr rfl
          | false => exact absurd (by rw [hA, hB]; rfl) hcond
      have heq := real_extract_single env input vid hm hsingle
      rw [heq] at h
      obtain ⟨rec2, hrec2, hid, fp, hfmts⟩ := single_video_ok_shape env vid _ h
      have hr : rec = rec2 := by simpa using hrec2
      subst hr
      rw [hfmts] at hf
      obtain ⟨g, hg, rfl⟩ := List.mem_map.mp hf
      exact ⟨_, rfl, dictGet_dictSet _ _ _⟩

theorem claim_C4_witness :
    ∃ hs, baseFormat.http_headers = some hs ∧
      dictGet hs "Youtubedl-no-compression" = some (HVal.bool true) :=
  claim_C4_no_compression baseEnv inputStd baseRec baseFormat (by rfl) (by decide)

theorem programInfoStep_effects (env : Collaborators) (vid : String) :
    (programInfoStep env vid).2 = [] ∨
      (programInfoStep env vid).2 = [Effect.callGetProgramInfo vid] := by
  unfold programInfoStep
  split
  · exact Or.inr rfl
  · exact Or.inl rfl

theorem videoDataStep_effects (env : Collaborators) (pi : ProgramInfo)
    (vde : VideoData × List Effect) (h : videoDataStep env pi = .ok vde) :
    vde.2 = [] ∨ ∃ a w c, vde.2 = [Effect.callGetMainUrl a w c] := by
  unfold videoDataStep at h
  cases hp : env.videoData_page with
  | some v =>
    simp only [hp] at h
    obtain rfl := Except.ok.inj h
    exact Or.inl rfl
  | none =>
    simp only [hp] at h
    cases ha : pi.assetId with
    | none => simp [ha] at h
    | some a =>
      simp only [ha] at h
      cases hw : pi.watchDevices with
      | none => simp [hw] at h
      | some w =>
        simp only [hw] at h
        cases hc : pi.contentType with
        | none => simp [hc] at h
        | some c =>
          simp only [hc] at h
          obtain rfl := Except.ok.inj h
          exact Or.inr ⟨a, w, c, rfl⟩

theorem afterVideoData_effects (env : Collaborators) (vid : String)
    (pi : ProgramInfo) (vd : VideoData) :
    (afterVideoData env vid pi vd).2 = [] ∨
      ∃ fp, (afterVideoData env vid pi vd).2 = [Effect.fetchManifest fp] := by
  unfold afterVideoData
  split
  · split
    · exact Or.inr ⟨_, rfl⟩
    · split
      · exact Or.inr ⟨_, rfl⟩
      · exact Or.inr ⟨_, rfl⟩
  · exact Or.inl rfl

/-- C5: on the single-video path, the VideoData comes from the embedded
uiHlsUrl parse; exactly when that parse yields no data, a POST to
getMainUrlNoAuth is issued whose body is the assetId, watchDevices and
contentType of the effective programInfo, and its response is the
VideoData driving the rest of the resolution. -/
theorem claim_C5_manifest_fallback (env : Collaborators) (input : SmuggledUrl)
    (video_id : String) (hmatch : matchId input.url = some video_id)
    (hsingle : env.episodes_page.isEmpty = true ∨
      effectiveNoplaylist env.noplaylist_param input.data = true) :
    (∀ vd, env.videoData_page = some vd →
      (∀ a w c, Effect.callGetMainUrl a w c ∉ (real_extract env input).2) ∧
      (real_extract env input).1 =
        (afterVideoData env video_id (programInfoStep env video_id).1 vd).1) ∧
    (env.videoData_page = none →
      ∀ a w c, (programInfoStep env video_id).1.assetId = some a →
        (programInfoStep env video_id).1.watchDevices = some w →
        (programInfoStep env video_id).1.contentType = some c →
        Effect.callGetMainUrl a w c ∈ (real_extract env input).2 ∧
        (real_extract env input).1 =
          (afterVideoData env video_id (programInfoStep env video_id).1
            env.videoData_api).1) := by
  have heq := real_extract_single env input video_id hmatch hsingle
  constructor
  · intro vd hvp
    have hstep : videoDataStep env (programInfoStep env video_id).1 = .ok (vd, []) := by
      simp only [videoDataStep, hvp]
    constructor
    · intro a w c
      rw [heq]
      simp only [single_video, hstep]
      rcases programInfoStep_effects env video_id with hp | hp <;>
        rcases afterVideoData_effects env video_id (programInfoStep env video_id).1 vd with
          hav | ⟨fp, hav⟩ <;>
        by_cases hscr : (!env.episodes_page.isEmpty &&
            input.data.force_noplaylist.isNone) = true <;>
        simp [hp, hav, hscr]
    · rw [heq]
      simp only [single_video, hstep]
  · intro hvp a w c ha hw hc
    have hstep : videoDataStep env (programInfoStep env video_id).1 =
        .ok (env.videoData_api, [Effect.callGetMainUrl a w c]) := by
      simp only [videoDataStep, hvp, ha, hw, hc]
    constructor
    · rw [heq]
      simp only [single_video, hstep]
      simp
    · rw [heq]
      simp only [single_video, hstep]

theorem claim_C5_witness :
    Effect.callGetMainUrl "A" "W" "CT" ∈ (real_extract envC5 inputStd).2 :=
  ((claim_C5_manifest_fallback envC5 inputStd "V1" (by rfl) (Or.inl rfl)).2
    rfl "A" "W" "CT" rfl rfl rfl).1

/-- C6: the getProgramInfo fallback is issued exactly when the webpage's
programInfo lacks assetId, and the programInfo driving the manifest
fallback payload and the metadata assembly is the API response in that
case, the page's object otherwise. -/
theorem claim_C6_programinfo_fallback (env : Collaborators) (input : SmuggledUrl)
    (video_id : String) (hmatch : matchId input.url = some video_id)
    (hsingle : env.episodes_page.isEmpty = true ∨
      effectiveNoplaylist env.noplaylist_param input.data = true) :
    (Effect.callGetProgramInfo video_id ∈ (real_extract env input).2 ↔
      env.programInfo_page.assetId = none) ∧
    (env.programInfo_page.assetId = none →
      (programInfoStep env video_id).1 = env.programInfo_api) ∧
    (∀ s, env.programInfo_page.assetId = some s →
      (programInfoStep env video_id).1 = env.programInfo_page) ∧
    (real_extract env input).1 =
      (match videoDataStep env (programInfoStep env video_id).1 with
       | .error e => .error e
       | .ok vde =>
         (afterVideoData env video_id (programInfoStep env video_id).1 vde.1).1) := by
  have heq := real_extract_single env input video_id hmatch hsingle
  refine ⟨⟨?_, ?_⟩, fun hn => by simp [programInfoStep, hn],
    fun s hs => by simp [programInfoStep, hs], ?_⟩
  · intro hmem
    by_contra hne2
    have hsome : ∃ s, env.programInfo_page.assetId = some s := by
      cases hx : env.programInfo_page.assetId with
      | none => exact absurd hx hne2
      | some s => exact ⟨s, rfl⟩
    obtain ⟨s, hs⟩ := hsome
    have hp2 : (programInfoStep env video_id).2 = [] := by
      simp [programInfoStep, hs]
    rw [heq] at hmem
    cases hvd : videoDataStep env (programInfoStep env video_id).1 with
    | error e =>
      simp only [single_video, hvd] at hmem
      by_cases hscr : (!env.episodes_page.isEmpty &&
          input.data.force_noplaylist.isNone) = true <;>
        simp [hp2, hscr] at hmem
    | ok vde =>
      simp only [single_video, hvd] at hmem
      rcases videoDataStep_effects env _ vde hvd with hv | ⟨a, w, c, hv⟩ <;>
        rcases afterVideoData_effects env video_id (programInfoStep env video_id).1 vde.1 with
          hav | ⟨fp, hav⟩ <;>
        by_cases hscr : (!env.episodes_page.isEmpty &&
            input.data.force_noplaylist.isNone) = true <;>
        simp [hp2, hv, hav, hscr] at hmem
  · intro hn
    have hp2 : (programInfoStep env video_id).2 = [Effect.callGetProgramInfo video_id] := by
      simp [programInfoStep, hn]
    rw [heq]
    cases hvd : videoDataStep env (programInfoStep env video_id).1 with
    | error e =>
      simp only [single_video, hvd]
      simp [hp2]
    | ok vde =>
      simp only [single_video, hvd]
      simp [hp2]
  · rw [heq]
    cases hvd : videoDataStep env (programInfoStep env video_id).1 with
    | error e => simp [single_video, hvd]
    | ok vde => simp [single_video, hvd]

theorem claim_C6_witness :
    Effect.callGetProgramInfo "V1" ∈ (real_extract envC6 inputStd).2 :=
  ((claim_C6_programinfo_fallback envC6 inputStd "V1" (by rfl) (Or.inl rfl)).1).mpr rfl

theorem eatLit_append : ∀ (lit cs r : List Char), eatLit lit cs = some r → cs = lit ++ r := by
  intro lit
  induction lit with
  | nil =>
    intro cs r h
    simp only [eatLit] at h
    rw [← Option.some.inj h]
    rfl
  | cons p ps ih =>
    intro cs r h
    cases cs with
    | nil => simp [eatLit] at h
    | cons c cs' =>
      simp only [eatLit] at h
      by_cases hc : (c == p) = true
      · rw [if_pos hc] at h
        have h2 := ih cs' r h
        have h3 : c = p := by simpa using hc
        rw [h3, h2]
        rfl
      · rw [if_neg hc] at h
        cases h

theorem eatOpt_append (lit cs : List Char) : ∃ pre, cs = pre ++ eatOpt lit cs := by
  unfold eatOpt
  cases h : eatLit lit cs with
  | some r => exact ⟨lit, eatLit_append lit cs r h⟩
  | none => exact ⟨[], rfl⟩

theorem drop_length_takeWhile (p : Char → Bool) (l : List Char) :
    l.drop (l.takeWhile p).length = l.dropWhile p := by
  induction l with
  | nil => rfl
  | cons c rest ih =>
    by_cases hc : p c = true
    · rw [List.takeWhile_cons_of_pos hc, List.dropWhile_cons_of_pos hc]
      simpa using ih
    · rw [List.takeWhile_cons_of_neg hc, List.dropWhile_cons_of_neg hc]
      rfl

theorem dropWhile_head_amp (l : List Char) :
    l.dropWhile (fun c => c != '&') = [] ∨
      ∃ t, l.dropWhile (fun c => c != '&') = '&' :: t := by
  induction l with
  | nil => exact Or.inl rfl
  | cons c rest ih =>
    by_cases hc : (c != '&') = true
    · rw [List.dropWhile_cons_of_pos (p := fun x => x != '&') (a := c) hc]
      exact ih
    · rw [List.dropWhile_cons_of_neg (p := fun x => x != '&') (a := c) hc]
      have hamp : c = '&' := by simpa using hc
      exact Or.inr ⟨rest, by rw [hamp]⟩

theorem takeCapture_spec (cs : List Char) (i : String) (h : takeCapture cs = some i) :
    i.data = cs.takeWhile (fun c => c != '&') ∧ i.data ≠ [] ∧
      (∀ c ∈ i.data, c ≠ '&') ∧
      (cs.dropWhile (fun c => c != '&') = [] ∨
        ∃ t, cs.dropWhile (fun c => c != '&') = '&' :: t) := by
  simp only [takeCapture] at h
  by_cases he : (cs.takeWhile (fun c => c != '&')).isEmpty = true
  · rw [if_pos he] at h
    cases h
  · rw [if_neg he] at h
    obtain rfl := Option.some.inj h.symm
    refine ⟨rfl, ?_, ?_, dropWhile_head_amp cs⟩
    · intro hnil
      have : (cs.takeWhile (fun c => c != '&')).isEmpty = true := by
        rw [show cs.takeWhile (fun c => c != '&') = [] from hnil]
        rfl
      exact he this
    · intro c hc
      have := List.mem_takeWhile_imp hc
      simpa using this

theorem takeCapture_decomp (cs : List Char) (i : String) (h : takeCapture cs = some i) :
    ∃ post, cs = i.data ++ post ∧ i.data ≠ [] ∧ (∀ c ∈ i.data, c ≠ '&') ∧
      (post = [] ∨ ∃ t, post = '&' :: t) := by
  obtain ⟨hdata, hne, hmem, hdrop⟩ := takeCapture_spec cs i h
  refine ⟨cs.dropWhile (fun c => c != '&'), ?_, hne, hmem, hdrop⟩
  rw [hdata]
  exact (List.takeWhile_append_dropWhile _ _).symm

theorem matchIdAssign_structure (cs : List Char) (i : String)
    (h : matchIdAssign cs = some i) :
    ∃ pre post, cs = pre ++ ("id=".data ++ i.data) ++ post ∧ i.data ≠ [] ∧
      (∀ c ∈ i.data, c ≠ '&') ∧ (post = [] ∨ ∃ t, post = '&' :: t) := by
  unfold matchIdAssign at h
  cases h1 : eatLit "content_id=".toList cs with
  | some rest =>
    simp only [h1] at h
    obtain ⟨post, hrest, hne, hmem, hdrop⟩ := takeCapture_decomp rest i h
    have hcs := eatLit_append _ _ _ h1
    refine ⟨"content_".data, post, ?_, hne, hmem, hdrop⟩
    have hsplit : ("content_id=".toList : List Char) = "content_".data ++ "id=".data := by
      decide
    rw [hcs, hrest, hsplit]
    simp [List.append_assoc]
  | none =>
    simp only [h1] at h
    cases h2 : eatLit "id=".toList cs with
    | some rest =>
      simp only [h2] at h
      obtain ⟨post, hrest, hne, hmem, hdrop⟩ := takeCapture_decomp rest i h
      have hcs := eatLit_append _ _ _ h2
      refine ⟨[], post, ?_, hne, hmem, hdrop⟩
      rw [hcs, hrest]
      simp [List.append_assoc]
    | none =>
      simp only [h2] at h
      cases h

theorem scanForId_structure : ∀ (cs : List Char) (prev : Option Char) (i : String),
    scanForId prev cs = some i →
    ∃ pre post, cs = pre ++ ("id=".data ++ i.data) ++ post ∧ i.data ≠ [] ∧
      (∀ c ∈ i.data, c ≠ '&') ∧ (post = [] ∨ ∃ t, post = '&' :: t) := by
  intro cs
  induction cs with
  | nil =>
    intro prev i h
    simp [scanForId] at h
  | cons c rest ih =>
    intro prev i h
    simp only [scanForId] at h
    cases htry : (if atBoundary prev (c :: rest) then matchIdAssign (c :: rest) else none) with
    | some j =>
      rw [htry] at h
      obtain rfl := Option.some.inj h
      by_cases hb : atBoundary prev (c :: rest) = true
      · rw [if_pos hb] at htry
        exact matchIdAssign_structure _ _ htry
      · rw [if_neg hb] at htry
        cases htry
    | none =>
      rw [htry] at h
      by_cases hn : (c == '\n') = true
      · rw [if_pos hn] at h
        cases h
      · rw [if_neg hn] at h
        obtain ⟨pre, post, hcs, hne, hmem, hdrop⟩ := ih (some c) i h
        refine ⟨c :: pre, post, ?_, hne, hmem, hdrop⟩
        rw [hcs]
        simp [List.append_assoc]

theorem matchId_structure (url : String) (i : String) (h : matchId url = some i) :
    ∃ pre post, url.toList = pre ++ ("id=".data ++ i.data) ++ post ∧ i.data ≠ [] ∧
      (∀ c ∈ i.data, c ≠ '&') ∧ (post = [] ∨ ∃ t, post = '&' :: t) := by
  unfold matchId at h
  simp only [Option.bind_eq_some] at h
  obtain ⟨cs1, h1, h⟩ := h
  obtain ⟨cs3, h3, h⟩ := h
  obtain ⟨cs5, h5, h⟩ := h
  obtain ⟨cs6, h6, h⟩ := h
  obtain ⟨cs7, h7, h⟩ := h
  obtain ⟨cs8, h8, h⟩ := h
  obtain ⟨cs9, h9, hscan⟩ := h
  have e1 : url.toList = "http".toList ++ cs1 := eatLit_append _ _ _ h1
  obtain ⟨p2, e2⟩ := eatOpt_append ['s'] cs1
  have e3 : eatOpt ['s'] cs1 = "://".toList ++ cs3 := eatLit_append _ _ _ h3
  obtain ⟨p4, e4⟩ := eatOpt_append "www.".toList cs3
  have e5 : eatOpt "www.".toList cs3 = "litv.tv/".toList ++ cs5 := eatLit_append _ _ _ h5
  have e6 : ∃ w, cs5 = w ++ cs6 := by
    cases hv : eatLit "vod".toList cs5 with
    | some r =>
      simp only [hv] at h6
      obtain rfl := Option.some.inj h6
      exact ⟨"vod".toList, eatLit_append _ _ _ hv⟩
    | none =>
      simp only [hv] at h6
      exact ⟨"promo".toList, eatLit_append _ _ _ h6⟩
  obtain ⟨w6, e6⟩ := e6
  have e7 : cs6 = ['/'] ++ cs7 := eatLit_append _ _ _ h7
  by_cases hseg : (cs7.takeWhile (fun c => c != '/')).isEmpty = true
  · rw [if_pos hseg] at h8
    cases h8
  · rw [if_neg hseg] at h8
    have e8a : cs7.drop (cs7.takeWhile (fun c => c != '/')).length = ['/'] ++ cs8 :=
      eatLit_append _ _ _ h8
    have e8 : ∃ seg, cs7 = seg ++ (['/'] ++ cs8) := by
      refine ⟨cs7.takeWhile (fun c => c != '/'), ?_⟩
      conv_lhs => rw [← List.takeWhile_append_dropWhile (fun c => c != '/') cs7]
      rw [← drop_length_takeWhile (fun c => c != '/') cs7, e8a]
    obtain ⟨seg8, e8⟩ := e8
    have e9 : ∃ q, cs8 = q ++ cs9 := by
      cases hq : eatLit "content.do?".toList cs8 with
      | some r =>
        simp only [hq] at h9
        obtain rfl := Option.some.inj h9
        exact ⟨"content.do?".toList, eatLit_append _ _ _ hq⟩
      | none =>
        simp only [hq] at h9
        exact ⟨['?'], eatLit_append _ _ _ h9⟩
    obtain ⟨q9, e9⟩ := e9
    obtain ⟨spre, post, escan, hne, hmem, hdrop⟩ := scanForId_structure cs9 (some '?') i hscan
    refine ⟨"http".toList ++ p2 ++ "://".toList ++ p4 ++ "litv.tv/".toList ++ w6 ++ ['/'] ++
      seg8 ++ ['/'] ++ q9 ++ spre, post, ?_, hne, hmem, hdrop⟩
    rw [e1, e2, e3, e4, e5, e6, e7, e8, e9, escan]
    simp [List.append_assoc]

theorem real_extract_video_id (env : Collaborators) (input : SmuggledUrl)
    (vid : String) (rec : ResultRecord) (hm : matchId input.url = some vid)
    (h : (real_extract env input).1 = .ok (.video rec)) : rec.id = vid := by
  by_cases hcond : (!env.episodes_page.isEmpty &&
      !effectiveNoplaylist env.noplaylist_param input.data) = true
  · rw [Bool.and_eq_true, Bool.not_eq_true', Bool.not_eq_true'] at hcond
    have heq := real_extract_playlist_branch env input vid hm hcond.1 hcond.2
    rw [heq] at h
    obtain ⟨es, i2, t, hplay⟩ := extract_playlist_ok_shape _ _ _ _ _ h
    simp at hplay
  · have hsingle : env.episodes_page.isEmpty = true ∨
        effectiveNoplaylist env.noplaylist_param input.data = true := by
      cases hA : env.episodes_page.isEmpty with
      | true => exact Or.inl rfl
      | false =>
        cases hB : effectiveNoplaylist env.noplaylist_param input.data with
        | true => exact Or.inr rfl
        | false => exact absurd (by rw [hA, hB]; rfl) hcond
    have heq := real_extract_single env input vid hm hsingle
    rw [heq] at h
    obtain ⟨rec2, hrec2, hid, _, _⟩ := single_video_ok_shape env vid _ h
    have hr : rec = rec2 := by simpa using hrec2
    rw [hr]
    exact hid

/-- C7: the pattern extracts VOD00037490 from the documented URL; a URL
the pattern rejects makes resolve fail with NoMatch; a successful
resolution's id is exactly the matched query value; and every matched id
is a non-empty ampersand-free run following an id= occurrence and
extending to the next ampersand or the end of the URL. -/
theorem claim_C7_url_matching :
    matchId "https://www.litv.tv/vod/drama/content.do?content_id=VOD00037490" =
      some "VOD00037490" ∧
    (∀ env input, matchId input.url = none →
      (real_extract env input).1 = .error .noMatch) ∧
    (∀ env input vid rec, matchId input.url = some vid →
      (real_extract env input).1 = .ok (.video rec) → rec.id = vid) ∧
    (∀ url i, matchId url = some i →
      i ≠ "" ∧ (∀ c ∈ i.data, c ≠ '&') ∧
      ∃ pre post, url.toList = pre ++ ("id=".data ++ i.data) ++ post ∧
        (post = [] ∨ ∃ t, post = '&' :: t)) := by
  refine ⟨by rfl, fun env input h => by simp [real_extract, h], ?_, ?_⟩
  · intro env input vid rec hm h
    exact real_extract_video_id env input vid rec hm h
  · intro url i h
    obtain ⟨pre, post, hurl, hne, hmem, hdrop⟩ := matchId_structure url i h
    refine ⟨?_, hmem, pre, post, hurl, hdrop⟩
    intro hi
    apply hne
    rw [hi]

theorem claim_C7_witness :
    (real_extract baseEnv inputBad).1 = .error .noMatch :=
  claim_C7_url_matching.2.1 baseEnv inputBad rfl

end LiTV
